import Mathlib

/-!
Shallow embedding of the subtitle-to-audio synchronization core of the
sub-lator repository (src/src/core/subtitle_synchronizer.py,
src/src/core/whisper_synchronizer.py, and the SRT timestamp formatter in
src/src/gui/srt_generation_view.py), together with theorems settling the
frozen claims about it.

Python floats are modelled as rationals, numpy arrays as lists, the DTW
cost matrix (floats with np.inf) as `WithTop Nat`, and the external
collaborators (ffmpeg/ffprobe, whisperx) as explicit environment records.
-/

/-- Python `int(x)` on a float: truncation toward zero. -/
def truncInt (q : ℚ) : ℤ := if 0 ≤ q then ⌊q⌋ else -⌊-q⌋

/-- Python `a % b` for floats with `b > 0` (result has the sign of `b`). -/
def ratMod (a b : ℚ) : ℚ := a - b * ⌊a / b⌋

/-- Zero padding to width 2, as Python `f"{n:02d}"` for nonnegative `n`. -/
def pad2 (n : ℕ) : String := if n < 10 then "0" ++ toString n else toString n

/-- Zero padding to width 3, as Python `f"{n:03d}"` for nonnegative `n`. -/
def pad3 (n : ℕ) : String :=
  if n < 10 then "00" ++ toString n
  else if n < 100 then "0" ++ toString n else toString n

/-- Configuration state of `SubtitleSynchronizer.__init__`
(subtitle_synchronizer.py lines 13-26). -/
structure SubtitleSynchronizer where
  window_size_ms : ℚ := 10
  use_dtw : Bool := true
  max_offset_seconds : ℚ := 10
deriving DecidableEq

/-- Write 1 into the index range `[a, b)` of a signal, as the numpy slice
assignment `signal[a:b] = 1`. -/
def setRange (sig : List ℚ) (a b : ℕ) : List ℚ :=
  sig.mapIdx fun i x => if a ≤ i ∧ i < b then 1 else x

/-- `SubtitleSynchronizer.create_subtitle_signal`
(subtitle_synchronizer.py lines 72-92): rasterize intervals onto the
window grid, with indices clamped to `[0, n_windows)` resp. `[0, n_windows]`. -/
def SubtitleSynchronizer.create_subtitle_signal (self : SubtitleSynchronizer)
    (subtitle_intervals : List (ℚ × ℚ)) (audio_duration : ℚ) : List ℚ :=
  let n_windows : ℤ := truncInt (audio_duration * 1000 / self.window_size_ms)
  subtitle_intervals.foldl
    (fun sig p =>
      let start_idx := max 0 (min (truncInt (p.1 * 1000 / self.window_size_ms)) (n_windows - 1))
      let end_idx := max 0 (min (truncInt (p.2 * 1000 / self.window_size_ms)) n_windows)
      setRange sig start_idx.toNat end_idx.toNat)
    (List.replicate n_windows.toNat 0)

/-- One lag of `scipy.signal.correlate(a, v, mode='full')`: output index
`idx` holds the lag `k = idx - (len(v) - 1)`, with value
`sum_n a[n + k] * v[n]` over the indices where both are in range. -/
def corrAt (a v : List ℚ) (idx : ℕ) : ℚ :=
  (List.range v.length).foldl
    (fun acc (n : ℕ) =>
      let j : ℤ := (n : ℤ) + (idx : ℤ) - ((v.length : ℤ) - 1)
      acc + (if 0 ≤ j ∧ j < (a.length : ℤ) then a.getD j.toNat 0 * v.getD n 0 else 0))
    0

/-- Full cross-correlation, `scipy.signal.correlate(a, v, mode='full')`
(length `len(a) + len(v) - 1`). -/
def crossCorrelate (a v : List ℚ) : List ℚ :=
  (List.range (a.length + v.length - 1)).map (corrAt a v)

/-- Index of the first occurring maximum, continuing a scan that has seen
best value `bv` at index `bi` with `i` elements consumed so far. -/
def argmaxFirstAux : ℕ → ℚ → ℕ → List ℚ → ℕ
  | bi, _, _, [] => bi
  | bi, bv, i, x :: xs =>
    if bv < x then argmaxFirstAux i x (i + 1) xs else argmaxFirstAux bi bv (i + 1) xs

/-- `np.argmax`: index of the first occurrence of the maximum value. -/
def argmaxFirst : List ℚ → ℕ
  | [] => 0
  | x :: xs => argmaxFirstAux 0 x 1 xs

/-- `SubtitleSynchronizer.find_global_offset`
(subtitle_synchronizer.py lines 94-125): pad the shorter signal, take the
first-maximum lag of the full cross-correlation, convert to seconds, and
zero out offsets whose magnitude exceeds `max_offset_seconds`. -/
def SubtitleSynchronizer.find_global_offset (self : SubtitleSynchronizer)
    (audio_signal subtitle_signal : List ℚ) : ℚ :=
  if audio_signal.length = 0 ∨ subtitle_signal.length = 0 then 0
  else
    let max_len := max audio_signal.length subtitle_signal.length
    let a := audio_signal ++ List.replicate (max_len - audio_signal.length) 0
    let v := subtitle_signal ++ List.replicate (max_len - subtitle_signal.length) 0
    let correlation := crossCorrelate a v
    let max_idx := argmaxFirst correlation
    let offset_windows : ℤ := (max_idx : ℤ) - (v.length : ℤ) + 1
    let offset_seconds : ℚ := (offset_windows : ℚ) * self.window_size_ms / 1000
    if self.max_offset_seconds < |offset_seconds| then 0 else offset_seconds

/-- One row of the DTW cost-matrix fill loop
(subtitle_synchronizer.py lines 141-145): `matchc j` is the match cost
of column `j + 1` in this row, `prev` is the previous row; column 0 is
infinity and the interior follows the match-cost recurrence. -/
def dtwRowAux (matchc : ℕ → WithTop ℕ) (prev : ℕ → WithTop ℕ) : ℕ → WithTop ℕ
  | 0 => ⊤
  | j + 1 =>
    matchc j + min (prev (j + 1)) (min (dtwRowAux matchc prev j) (prev j))

/-- DTW cost matrix of `SubtitleSynchronizer.apply_dynamic_time_warping`
(subtitle_synchronizer.py lines 134-145), built row by row as the source
loop does: `cost[0][0] = 0`, the rest of the first row and column is
infinity, and `cost[i][j] = match_cost(i-1, j-1) +
min(cost[i-1][j], cost[i][j-1], cost[i-1][j-1])` where the match cost is
0 when the two signal values agree and 1 otherwise.  Values are naturals
extended with infinity (`np.inf`). -/
def dtwCost (A B : List ℚ) : ℕ → ℕ → WithTop ℕ
  | 0 => fun j => if j = 0 then 0 else ⊤
  | i + 1 =>
    dtwRowAux (fun j => if A.getD i 0 = B.getD j 0 then (0 : WithTop ℕ) else 1)
      (dtwCost A B i)

/-- One row's worth of the backtracking loop of
`apply_dynamic_time_warping` (subtitle_synchronizer.py lines 147-159):
from 1-based `(i + 1, j)` collect `(i, j - 1)` and move to the
minimum-cost predecessor, preferring the diagonal, then the upward step,
then the leftward step on ties; `prevBT` continues the walk once the
row index drops to `i`. -/
def dtwBTRow (A B : List ℚ) (i : ℕ) (prevBT : ℕ → List (ℕ × ℕ)) :
    ℕ → List (ℕ × ℕ)
  | 0 => []
  | j + 1 =>
    let up := dtwCost A B i (j + 1)
    let left := dtwCost A B (i + 1) j
    let diag := dtwCost A B i j
    let min_cost := min up (min left diag)
    (i, j) ::
      (if min_cost = diag then prevBT j
       else if min_cost = up then prevBT (j + 1)
       else dtwBTRow A B i prevBT j)

/-- Full backtracking walk of `apply_dynamic_time_warping` from 1-based
`(i, j)` down to the matrix origin (subtitle_synchronizer.py lines
147-159), in the order the source appends the points. -/
def dtwBacktrack (A B : List ℚ) : ℕ → ℕ → List (ℕ × ℕ)
  | 0 => fun _ => []
  | i + 1 => dtwBTRow A B i (dtwBacktrack A B i)

/-- `SubtitleSynchronizer.apply_dynamic_time_warping`
(subtitle_synchronizer.py lines 127-162): backtrack from `(n, m)` and
reverse the collected path. -/
def apply_dynamic_time_warping (A B : List ℚ) : List (ℕ × ℕ) :=
  (dtwBacktrack A B A.length B.length).reverse

/-- Insertion into a Python dict rendered as an association list: an
existing key is overwritten in place, a new key is appended, preserving
insertion order of first occurrences. -/
def dictInsert (d : List (ℚ × ℚ)) (kv : ℚ × ℚ) : List (ℚ × ℚ) :=
  if d.any (fun e => e.1 == kv.1) then
    d.map (fun e => if e.1 == kv.1 then kv else e)
  else d ++ [kv]

/-- `dict.get(k, dflt)`. -/
def dictGet (d : List (ℚ × ℚ)) (k : ℚ) (dflt : ℚ) : ℚ :=
  match d.find? (fun e => e.1 == k) with
  | some e => e.2
  | none => dflt

/-- The `subtitle_to_audio` dict of `adjust_timings`
(subtitle_synchronizer.py lines 182-186): key `sub_idx * window_time`,
value `audio_idx * window_time`, later path points overwriting earlier
ones with the same key. -/
def subtitleToAudio (window_time : ℚ) (dtw_path : List (ℕ × ℕ)) : List (ℚ × ℚ) :=
  dtw_path.foldl
    (fun d p => dictInsert d ((p.2 : ℚ) * window_time, (p.1 : ℚ) * window_time)) []

/-- Python `min(keys, key=lambda x: abs(x - t), default=dflt)`: the first
element (in list order) minimizing the distance to `t`. -/
def closestKey (t : ℚ) (keys : List ℚ) (dflt : ℚ) : ℚ :=
  match keys with
  | [] => dflt
  | k :: ks => ks.foldl (fun best x => if |x - t| < |best - t| then x else best) k

/-- `SubtitleSynchronizer.adjust_timings`
(subtitle_synchronizer.py lines 164-210).  Without a DTW path (or with
`use_dtw` disabled) each interval is shifted by the offset, the start
clamped at 0 and the end clamped to the duration when known; no minimum
duration is enforced on this branch.  With a DTW path, each boundary is
remapped through the nearest path point (falling back to the plain offset
when absent from the dict), the start clamped at 0, the end clamped to
the duration when known, and a 0.1 s minimum duration enforced by
extending the end (without re-clamping). -/
def SubtitleSynchronizer.adjust_timings (self : SubtitleSynchronizer)
    (subtitle_intervals : List (ℚ × ℚ)) (offset : ℚ)
    (dtw_path : Option (List (ℕ × ℕ))) (audio_duration : Option ℚ) :
    List (ℚ × ℚ) :=
  if dtw_path.isNone ∨ self.use_dtw = false then
    subtitle_intervals.map fun p =>
      (max 0 (p.1 + offset),
        match audio_duration with
        | none => p.2 + offset
        | some d => min d (p.2 + offset))
  else
    let path := dtw_path.getD []
    let window_time := self.window_size_ms / 1000
    let dict := subtitleToAudio window_time path
    subtitle_intervals.map fun p =>
      let closest_start := closestKey p.1 (dict.map Prod.fst) p.1
      let closest_end := closestKey p.2 (dict.map Prod.fst) p.2
      let adjusted_start := dictGet dict closest_start (p.1 + offset)
      let adjusted_end := dictGet dict closest_end (p.2 + offset)
      let adjusted_start := max 0 adjusted_start
      let adjusted_end :=
        match audio_duration with
        | none => adjusted_end
        | some d => min d adjusted_end
      if adjusted_end - adjusted_start < 1 / 10 then
        (adjusted_start, adjusted_start + 1 / 10)
      else (adjusted_start, adjusted_end)

/-- The pre-DTW global shift of the subtitle signal
(subtitle_synchronizer.py lines 253-259): pad on the left and trim the
tail for a positive shift (trimming only when the shift is smaller than
the original length), pad on the right and drop the head for a negative
shift. -/
def shiftSignal (sig : List ℚ) (offset_windows : ℤ) : List ℚ :=
  if 0 < offset_windows then
    let k := offset_windows.toNat
    let padded := List.replicate k (0 : ℚ) ++ sig
    if k < sig.length then padded.take (padded.length - k) else padded
  else if offset_windows < 0 then
    let k := (-offset_windows).toNat
    (sig ++ List.replicate k (0 : ℚ)).drop k
  else sig

/-- External behavior visible to `SubtitleSynchronizer.synchronize`:
`extract` is the voice-activity signal produced by
`extract_audio_features` (`none` models the call raising), `probe` the
ffprobe duration (`none` models an unparsable/failed probe), and
`dtw_raises` whether `apply_dynamic_time_warping` raises
(e.g. memory exhaustion), which the code catches by falling back to
`dtw_path = None`. -/
structure SubtitleEnv where
  extract : Option (List ℚ)
  probe : Option ℚ
  dtw_raises : Bool

/-- Result of `SubtitleSynchronizer.synchronize` together with whether
`extract_audio_features` was invoked during the call. -/
structure SubSyncOutcome where
  intervals : List (ℚ × ℚ)
  extraction_invoked : Bool
deriving DecidableEq

/-- `SubtitleSynchronizer.synchronize`
(subtitle_synchronizer.py lines 212-280): extract audio features (always
invoked, first statement of the `try` block; a failure is caught and the
original intervals returned), determine the duration, build the subtitle
signal, estimate the global offset, run DTW on the shifted and
length-matched signals when enabled, and adjust the timings. -/
def SubtitleSynchronizer.synchronize (self : SubtitleSynchronizer)
    (env : SubtitleEnv) (subtitle_intervals : List (ℚ × ℚ))
    (audio_duration : Option ℚ) : SubSyncOutcome :=
  match env.extract with
  | none => ⟨subtitle_intervals, true⟩
  | some audio_signal =>
    let dur : ℚ :=
      match audio_duration with
      | some d => d
      | none =>
        match env.probe with
        | some d => d
        | none => (audio_signal.length : ℚ) * self.window_size_ms / 1000
    let subtitle_signal := self.create_subtitle_signal subtitle_intervals dur
    let offset := self.find_global_offset audio_signal subtitle_signal
    let dtw_path : Option (List (ℕ × ℕ)) :=
      if self.use_dtw then
        if env.dtw_raises then none
        else
          let offset_windows := truncInt (offset * 1000 / self.window_size_ms)
          let adjusted_subtitle_signal := shiftSignal subtitle_signal offset_windows
          let min_len := min audio_signal.length adjusted_subtitle_signal.length
          some (apply_dynamic_time_warping (audio_signal.take min_len)
            (adjusted_subtitle_signal.take min_len))
      else none
    ⟨self.adjust_timings subtitle_intervals offset dtw_path (some dur), true⟩

/-- Configuration state of `WhisperSynchronizer.__init__`
(whisper_synchronizer.py lines 15-35). -/
structure WhisperSynchronizer where
  model_size : String := "base"
  compute_type : String := "float16"
  language : String := "en"
  timeout_seconds : ℕ := 300
  device : String := "cpu"
deriving DecidableEq

/-- Outcome of a `whisperx.load_model` call: success, a `RuntimeError`
(recording whether its message contains "float16"), or an exception of
another type. -/
inductive LoadModelOutcome
  | ok
  | runtimeError (mentionsFloat16 : Bool)
  | otherError
deriving DecidableEq

/-- External behavior visible to `WhisperSynchronizer.synchronize`:
file-system state, `whisperx.load_audio` (its failure and the sample
count, at 16 kHz), the wall-clock timeout checks between pipeline
stages, model and align-model loading, and the aligner itself, which
maps the submitted segments (interval and text) to aligned intervals. -/
structure WhisperEnv where
  file_exists : Bool
  load_audio_ok : Bool
  audio_len : ℕ
  timeout_audio : Bool
  load_model : String → LoadModelOutcome
  timeout_model : Bool
  timeout_segments : Bool
  load_align_ok : Bool
  timeout_align : Bool
  align_ok : Bool
  aligner : List ((ℚ × ℚ) × String) → List (ℚ × ℚ)

/-- Result of `WhisperSynchronizer.synchronize`: the returned intervals,
the final state of the synchronizer object (`self.compute_type` may have
been reassigned), and whether `whisperx.load_audio` was invoked. -/
structure WSyncOutcome where
  intervals : List (ℚ × ℚ)
  state : WhisperSynchronizer
  load_audio_invoked : Bool

/-- Python truthiness of `text.strip()` (whisper_synchronizer.py line
115): true iff the text contains a non-whitespace character. -/
def stripTruthy (text : String) : Bool :=
  text.data.any (fun c => !c.isWhitespace)

/-- `max([end for _, end in aligned_intervals])`: maximum end time of a
(nonempty) interval list. -/
def maxEnd : List (ℚ × ℚ) → ℚ
  | [] => 0
  | p :: ps => ps.foldl (fun m q => max m q.2) p.2

/-- Tier-1 rescaling (whisper_synchronizer.py lines 158-175): when the
maximum aligned end time exceeds `audio_duration * 1.1`, multiply every
start and end by `scale_factor = audio_duration / last_end`. -/
def scaleStep (audio_duration : ℚ) (aligned : List (ℚ × ℚ)) : List (ℚ × ℚ) :=
  if audio_duration * (11 / 10) < maxEnd aligned then
    aligned.map fun p =>
      (p.1 * (audio_duration / maxEnd aligned), p.2 * (audio_duration / maxEnd aligned))
  else aligned

/-- Second verification (whisper_synchronizer.py lines 177-190): clamp
each start at 0 and each end to the audio duration, and enforce the
100 ms minimum segment length, re-clamping the extended end to the
duration. -/
def clampStep (audio_duration : ℚ) (aligned : List (ℚ × ℚ)) : List (ℚ × ℚ) :=
  aligned.map fun p =>
    let s := max 0 p.1
    let e := min p.2 audio_duration
    (s, if e - s < 1 / 10 then min (s + 1 / 10) audio_duration else e)

/-- The guarded scale-and-clamp pass (whisper_synchronizer.py lines
158-191), which runs only when the aligned list is nonempty and the
audio duration is truthy (nonzero). -/
def sanityPass (audio_duration : ℚ) (aligned : List (ℚ × ℚ)) : List (ℚ × ℚ) :=
  if aligned ≠ [] ∧ audio_duration ≠ 0 then
    clampStep audio_duration (scaleStep audio_duration aligned)
  else aligned

/-- Last-resort correction (whisper_synchronizer.py lines 193-208): if
any end time exceeds 3600 s after the earlier pass, and the duration is
truthy, redistribute the segments linearly and evenly across
`[0, audio_duration)`. -/
def emergencyPass (audio_duration : ℚ) (aligned : List (ℚ × ℚ)) : List (ℚ × ℚ) :=
  if aligned ≠ [] ∧ aligned.any (fun p => decide (3600 < p.2)) then
    if 0 < aligned.length ∧ audio_duration ≠ 0 then
      (List.range aligned.length).map fun (i : ℕ) =>
        ((i : ℚ) * (audio_duration / aligned.length),
          min (((i : ℚ) + 1) * (audio_duration / aligned.length)) audio_duration)
    else aligned
  else aligned

/-- The full rescaling cascade applied to the aligner's output
(whisper_synchronizer.py lines 157-208). -/
def rescaleCascade (audio_duration : ℚ) (aligned : List (ℚ × ℚ)) : List (ℚ × ℚ) :=
  emergencyPass audio_duration (sanityPass audio_duration aligned)

/-- Duration reconciliation of `WhisperSynchronizer.synchronize`
(whisper_synchronizer.py lines 75-84): the actual duration is
`len(audio) / 16000`; a provided duration that is truthy but differs
from the actual one by more than 5 s is replaced by the actual one, and
a falsy (absent or zero) provided duration defaults to the actual one. -/
def whisperReconciledDuration (env : WhisperEnv)
    (audio_duration : Option ℚ) : ℚ :=
  let actual_audio_duration : ℚ := (env.audio_len : ℚ) / 16000
  match audio_duration with
  | some d =>
    if d ≠ 0 ∧ 5 < |d - actual_audio_duration| then actual_audio_duration
    else if d = 0 then actual_audio_duration
    else d
  | none => actual_audio_duration

/-- Tail of `WhisperSynchronizer.synchronize` after the transcription
model has been loaded (whisper_synchronizer.py lines 105-215): timeout
checks, segment construction (segments with whitespace-only text are
skipped), align-model loading, alignment, and the rescaling cascade.
Every failure path returns the original intervals. -/
def whisperSynchronizeRest (env : WhisperEnv) (self : WhisperSynchronizer)
    (subtitle_intervals : List (ℚ × ℚ)) (subtitle_texts : List String)
    (audio_duration : ℚ) : WSyncOutcome :=
  if env.timeout_model then ⟨subtitle_intervals, self, true⟩
  else
    let segments := (subtitle_intervals.zip subtitle_texts).filter
      fun p => stripTruthy p.2
    if env.timeout_segments then ⟨subtitle_intervals, self, true⟩
    else if env.load_align_ok = false then ⟨subtitle_intervals, self, true⟩
    else if env.timeout_align then ⟨subtitle_intervals, self, true⟩
    else if env.align_ok = false then ⟨subtitle_intervals, self, true⟩
    else
      let aligned_intervals := env.aligner segments
      ⟨rescaleCascade audio_duration aligned_intervals, self, true⟩

/-- `WhisperSynchronizer.synchronize` (whisper_synchronizer.py lines
37-222).  Entry checks (missing audio file, interval/text length
mismatch, empty interval list) return before `whisperx.load_audio` is
invoked; afterwards the duration is reconciled with the actual audio
length, the model is loaded — retrying once with float32 and
reassigning `self.compute_type` when a `RuntimeError` mentioning
"float16" occurs while `compute_type` is "float16" — and the rest of
the pipeline runs.  Any uncaught exception is caught by the outer
handler, which returns the original intervals. -/
def WhisperSynchronizer.synchronize (env : WhisperEnv)
    (self : WhisperSynchronizer) (subtitle_intervals : List (ℚ × ℚ))
    (subtitle_texts : List String) (audio_duration : Option ℚ) : WSyncOutcome :=
  if env.file_exists = false then ⟨subtitle_intervals, self, false⟩
  else if subtitle_intervals.length ≠ subtitle_texts.length then
    ⟨subtitle_intervals, self, false⟩
  else if subtitle_intervals.isEmpty then ⟨[], self, false⟩
  else if env.load_audio_ok = false then ⟨subtitle_intervals, self, true⟩
  else
    let dur : ℚ := whisperReconciledDuration env audio_duration
    if env.timeout_audio then ⟨subtitle_intervals, self, true⟩
    else
      match env.load_model self.compute_type with
      | .ok => whisperSynchronizeRest env self subtitle_intervals subtitle_texts dur
      | .runtimeError mentionsFloat16 =>
        if mentionsFloat16 ∧ self.compute_type = "float16" then
          let self' := { self with compute_type := "float32" }
          match env.load_model "float32" with
          | .ok => whisperSynchronizeRest env self' subtitle_intervals subtitle_texts dur
          | _ => ⟨subtitle_intervals, self', true⟩
        else ⟨subtitle_intervals, self, true⟩
      | .otherError => ⟨subtitle_intervals, self, true⟩

/-- Input to the SRT timestamp formatter: either a Python number or a
value of some other type (the `isinstance` guard). -/
inductive SrtSeconds
  | num (q : ℚ)
  | nonNumeric
deriving DecidableEq

/-- `_format_timestamp_srt` (srt_generation_view.py lines 1089-1110):
non-numeric or negative values are replaced by 0, values above 10 hours
(36000 s) are capped there, and the result is rendered as
`HH:MM:SS,mmm` with truncating integer conversions. -/
def format_timestamp_srt (seconds : SrtSeconds) : String :=
  let s : ℚ :=
    match seconds with
    | .nonNumeric => 0
    | .num q => if q < 0 then 0 else q
  let s : ℚ := if 36000 < s then 36000 else s
  let hours := (truncInt (s / 3600)).toNat
  let minutes := (truncInt (ratMod s 3600 / 60)).toNat
  let secs := (truncInt (ratMod s 60)).toNat
  let millisecs := (truncInt (ratMod s 1 * 1000)).toNat
  pad2 hours ++ ":" ++ pad2 minutes ++ ":" ++ pad2 secs ++ "," ++ pad3 millisecs

/-! ### Concrete fixtures used by witnesses and counterexamples -/

/-- A `SubtitleSynchronizer` with the constructor's default configuration
(window 10 ms, DTW enabled, maximum offset 10 s). -/
def syncDefault : SubtitleSynchronizer := {}

/-- A `WhisperSynchronizer` with the constructor's default configuration. -/
def whisperDefault : WhisperSynchronizer := {}

/-- A benign external environment for `WhisperSynchronizer.synchronize`:
the audio file exists, every external call succeeds, no timeout fires,
the audio holds 800000 samples (50 s at 16 kHz), and the aligner returns
each submitted segment's interval unchanged. -/
def envAlignId : WhisperEnv where
  file_exists := true
  load_audio_ok := true
  audio_len := 800000
  timeout_audio := false
  load_model := fun _ => .ok
  timeout_model := false
  timeout_segments := false
  load_align_ok := true
  timeout_align := false
  align_ok := true
  aligner := fun segs => segs.map Prod.fst

/-- Like `envAlignId` but the aligner returns ten segments all ending at
7200 s (the tier-3 scenario input). -/
def envAligned7200 : WhisperEnv :=
  { envAlignId with aligner := fun _ => List.replicate 10 ((0 : ℚ), (7200 : ℚ)) }

/-- Like `envAlignId` (1 s of audio) but loading the model with
compute type "float16" raises a `RuntimeError` mentioning "float16",
while "float32" loads fine. -/
def envFloat16Fail : WhisperEnv :=
  { envAlignId with
    audio_len := 16000,
    load_model := fun ct =>
      if ct = "float16" then .runtimeError true else .ok }

/-- Like `envAlignId` but the audio file is missing. -/
def envFileMissing : WhisperEnv := { envAlignId with file_exists := false }

/-- An environment for `SubtitleSynchronizer.synchronize` in which
feature extraction yields a one-window signal and ffprobe reports
duration 0. -/
def subEnvProbeZero : SubtitleEnv := ⟨some [0], some 0, false⟩

/-- An environment for `SubtitleSynchronizer.synchronize` in which
`extract_audio_features` raises. -/
def subEnvExtractFails : SubtitleEnv := ⟨none, none, false⟩

unseal Rat.mul Rat.add Rat.sub Rat.inv Rat.ofScientific

/-! ### C6 — global offset estimator: empty-input and bound behavior -/

/-- Claim C6: `find_global_offset` returns 0.0 immediately when either
input signal is empty, and, whenever the configured maximum offset is
nonnegative, the returned offset `o` satisfies `|o| <= max_offset_seconds`
(offsets whose magnitude exceeds the bound are replaced by 0.0). -/
theorem find_global_offset_bounded (self : SubtitleSynchronizer)
    (audio_signal subtitle_signal : List ℚ)
    (hmax : 0 ≤ self.max_offset_seconds) :
    ((audio_signal = [] ∨ subtitle_signal = []) →
      self.find_global_offset audio_signal subtitle_signal = 0) ∧
    |self.find_global_offset audio_signal subtitle_signal| ≤
      self.max_offset_seconds := by
  by_cases h : audio_signal.length = 0 ∨ subtitle_signal.length = 0
  · rw [SubtitleSynchronizer.find_global_offset, if_pos h]
    exact ⟨fun _ => rfl, by simpa using hmax⟩
  · rw [SubtitleSynchronizer.find_global_offset, if_neg h]
    constructor
    · intro h'
      exact absurd (h'.imp (fun e => by rw [e]; rfl) (fun e => by rw [e]; rfl)) h
    · dsimp only
      split_ifs with h2
      · simpa using hmax
      · exact le_of_not_lt h2

/-- Witness for C6 at a concrete empty input. -/
theorem find_global_offset_bounded_witness :
    ((([] : List ℚ) = [] ∨ ([1] : List ℚ) = []) →
      syncDefault.find_global_offset [] [1] = 0) ∧
    |syncDefault.find_global_offset [] [1]| ≤ syncDefault.max_offset_seconds :=
  find_global_offset_bounded syncDefault [] [1] (by decide)

/-! ### C8 — SRT timestamp formatting policy -/

/-- Claim C8: the SRT timestamp formatter maps non-numeric and negative
inputs to 0, caps values above 10 hours (36000 s) at exactly 10 hours,
and otherwise renders zero-padded `HH:MM:SS,mmm` truncating
sub-millisecond precision; concretely `-5` gives "00:00:00,000" and
`37000` gives "10:00:00,000". -/
theorem format_timestamp_srt_policy (q r : ℚ) (hq : q < 0) (hr : 36000 < r) :
    format_timestamp_srt (.num q) = "00:00:00,000" ∧
    format_timestamp_srt (.num r) = "10:00:00,000" ∧
    format_timestamp_srt .nonNumeric = "00:00:00,000" ∧
    format_timestamp_srt (.num (-5)) = "00:00:00,000" ∧
    format_timestamp_srt (.num 37000) = "10:00:00,000" ∧
    format_timestamp_srt (.num (5 + 9999 / 10000)) = "00:00:05,999" ∧
    format_timestamp_srt (.num (3661 + 1 / 2)) = "01:01:01,500" := by
  refine ⟨?_, ?_, by decide, by decide, by decide, by decide, by decide⟩
  · simp only [format_timestamp_srt]
    rw [if_pos hq]
    decide
  · have hr0 : ¬ r < 0 := not_lt.mpr (le_of_lt (lt_trans (by norm_num) hr))
    simp only [format_timestamp_srt]
    rw [if_neg hr0, if_pos hr]
    decide

/-! ### C2 — minimum-duration invariant of interval reconstruction -/

/-- Counterexample to claim C2: without a DTW path, `adjust_timings`
enforces no minimum duration — the zero-duration interval `(5.0, 5.0)`
is returned unchanged (not normalized to `(5.0, 5.1)`), violating
`end - start >= 0.1`. -/
theorem adjust_timings_no_dtw_keeps_zero_duration :
    syncDefault.adjust_timings [(5, 5)] 0 none (some 100) = [((5 : ℚ), (5 : ℚ))] ∧
    syncDefault.adjust_timings [(5, 5)] 0 none (some 100) ≠
      [((5 : ℚ), (51 : ℚ) / 10)] := by
  constructor
  · decide
  · decide

/-- Amended claim C2: every interval returned by `adjust_timings` on the
DTW branch (a path is supplied and `use_dtw` is enabled) satisfies
`end - start >= 0.1`; with a path mapping subtitle time 5.0 to audio
time 5.0, the interval `(5.0, 5.0)` becomes `(5.0, 5.1)`.  The
offset-only branch enforces no minimum duration. -/
theorem adjust_timings_dtw_min_duration (self : SubtitleSynchronizer)
    (hdtw : self.use_dtw = true) (subtitle_intervals : List (ℚ × ℚ))
    (offset : ℚ) (path : List (ℕ × ℕ)) (audio_duration : Option ℚ)
    (p : ℚ × ℚ)
    (hp : p ∈ self.adjust_timings subtitle_intervals offset (some path)
      audio_duration) :
    1 / 10 ≤ p.2 - p.1 ∧
    syncDefault.adjust_timings [(5, 5)] 0 (some [(500, 500)]) (some 100) =
      [((5 : ℚ), (51 : ℚ) / 10)] := by
  refine ⟨?_, by decide⟩
  simp only [SubtitleSynchronizer.adjust_timings, hdtw, Option.isNone_some,
    Bool.false_eq_true, or_self, if_false, Option.getD_some] at hp
  obtain ⟨x, _, rfl⟩ := List.mem_map.1 hp
  split_ifs with h
  · dsimp only
    linarith
  · dsimp only
    linarith [not_lt.mp h]

/-- Witness for the amended C2 at the concrete `(5.0, 5.0)` input. -/
theorem adjust_timings_dtw_min_duration_witness :
    1 / 10 ≤ ((5 : ℚ), (51 : ℚ) / 10).2 - ((5 : ℚ), (51 : ℚ) / 10).1 ∧
    syncDefault.adjust_timings [(5, 5)] 0 (some [(500, 500)]) (some 100) =
      [((5 : ℚ), (51 : ℚ) / 10)] :=
  adjust_timings_dtw_min_duration syncDefault (by decide) [(5, 5)] 0
    [(500, 500)] (some 100) ((5 : ℚ), (51 : ℚ) / 10) (by decide)

/-! ### C4 — tier-1 rescaling of the forced-alignment cascade -/

/-- Claim C4: when the known audio duration is positive and the maximum
aligned end time exceeds 1.1 times it, the sanity pass multiplies every
start and end by `audio_duration / max_end` (then clamps); with duration
60 and max end 650 all timestamps are multiplied by 60/650. -/
theorem sanity_pass_rescales (audio_duration : ℚ) (aligned : List (ℚ × ℚ))
    (hdur : 0 < audio_duration)
    (hmax : audio_duration * (11 / 10) < maxEnd aligned) :
    sanityPass audio_duration aligned =
      clampStep audio_duration (aligned.map fun p =>
        (p.1 * (audio_duration / maxEnd aligned),
          p.2 * (audio_duration / maxEnd aligned))) ∧
    sanityPass 60 [((13 : ℚ), (325 : ℚ)), ((325 : ℚ), (650 : ℚ))] =
      [((6 : ℚ) / 5, (30 : ℚ)), ((30 : ℚ), (60 : ℚ))] := by
  refine ⟨?_, by decide⟩
  have hne : aligned ≠ [] := by
    intro h
    rw [h] at hmax
    have : (0 : ℚ) < audio_duration * (11 / 10) :=
      mul_pos hdur (by norm_num)
    simp only [maxEnd] at hmax
    linarith
  rw [sanityPass, if_pos ⟨hne, ne_of_gt hdur⟩, scaleStep, if_pos hmax]

/-- Witness for C4 at the concrete duration-60/max-end-650 scenario. -/
theorem sanity_pass_rescales_witness :
    (sanityPass 60 [((13 : ℚ), (325 : ℚ)), ((325 : ℚ), (650 : ℚ))] =
      clampStep 60 ([((13 : ℚ), (325 : ℚ)), ((325 : ℚ), (650 : ℚ))].map fun p =>
        (p.1 * (60 / maxEnd [((13 : ℚ), (325 : ℚ)), ((325 : ℚ), (650 : ℚ))]),
          p.2 * (60 / maxEnd [((13 : ℚ), (325 : ℚ)), ((325 : ℚ), (650 : ℚ))])))) ∧
    sanityPass 60 [((13 : ℚ), (325 : ℚ)), ((325 : ℚ), (650 : ℚ))] =
      [((6 : ℚ) / 5, (30 : ℚ)), ((30 : ℚ), (60 : ℚ))] :=
  sanity_pass_rescales 60 [((13 : ℚ), (325 : ℚ)), ((325 : ℚ), (650 : ℚ))]
    (by norm_num) (by decide)

/-! ### C3 — the 3600 s last-resort redistribution -/

/-- Counterexample to claim C3: on the claim's concrete scenario (ten
aligned segments with maximum end time 7200 s, known duration 50 s) the
tier-1 rescaling fires first, so `synchronize` returns the scaled and
clamped intervals — ten copies of `(0, 50)` — not the linear
redistribution `[0,5), [5,10), ..., [45,50)`. -/
theorem whisper_tier3_scenario_not_redistributed :
    (WhisperSynchronizer.synchronize envAligned7200 whisperDefault
        (List.replicate 10 ((0 : ℚ), (1 : ℚ))) (List.replicate 10 "a")
        (some 50)).intervals = List.replicate 10 ((0 : ℚ), (50 : ℚ)) ∧
    (WhisperSynchronizer.synchronize envAligned7200 whisperDefault
        (List.replicate 10 ((0 : ℚ), (1 : ℚ))) (List.replicate 10 "a")
        (some 50)).intervals ≠
      (List.range 10).map (fun (i : ℕ) => ((i : ℚ) * 5, (i : ℚ) * 5 + 5)) := by
  constructor
  · decide
  · decide

/-- Amended claim C3: the 3600 s ceiling is checked only after the
scale-and-clamp pass; when some end time still exceeds 3600 s at that
point and the duration is nonzero, all segments are redistributed
linearly and evenly across `[0, audio_duration)` in original order.  In
the 7200 s/50 s scenario the tier-1 rescaling fires instead and the
output is the scaled and clamped intervals. -/
theorem emergency_redistribution_after_sanity (audio_duration : ℚ)
    (aligned : List (ℚ × ℚ)) (hdur : audio_duration ≠ 0)
    (hany : (sanityPass audio_duration aligned).any
      (fun p => decide (3600 < p.2)) = true) :
    rescaleCascade audio_duration aligned =
      (List.range (sanityPass audio_duration aligned).length).map (fun (i : ℕ) =>
        ((i : ℚ) * (audio_duration / (sanityPass audio_duration aligned).length),
          min (((i : ℚ) + 1) *
              (audio_duration / (sanityPass audio_duration aligned).length))
            audio_duration)) ∧
    rescaleCascade 50 (List.replicate 10 ((0 : ℚ), (7200 : ℚ))) =
      List.replicate 10 ((0 : ℚ), (50 : ℚ)) := by
  refine ⟨?_, by decide⟩
  have hne : sanityPass audio_duration aligned ≠ [] := by
    intro h
    rw [h] at hany
    simp at hany
  have hlen : 0 < (sanityPass audio_duration aligned).length :=
    List.length_pos.mpr hne
  rw [rescaleCascade, emergencyPass, if_pos ⟨hne, hany⟩, if_pos ⟨hlen, hdur⟩]

/-- Witness for the amended C3: duration 7200 s with one aligned segment
ending at 4000 s, which survives the clamp and triggers redistribution. -/
theorem emergency_redistribution_after_sanity_witness :
    (rescaleCascade 7200 [((0 : ℚ), (4000 : ℚ))] =
      (List.range (sanityPass 7200 [((0 : ℚ), (4000 : ℚ))]).length).map (fun (i : ℕ) =>
        ((i : ℚ) * (7200 / (sanityPass 7200 [((0 : ℚ), (4000 : ℚ))]).length),
          min (((i : ℚ) + 1) *
              (7200 / (sanityPass 7200 [((0 : ℚ), (4000 : ℚ))]).length))
            7200))) ∧
    rescaleCascade 50 (List.replicate 10 ((0 : ℚ), (7200 : ℚ))) =
      List.replicate 10 ((0 : ℚ), (50 : ℚ)) :=
  emergency_redistribution_after_sanity 7200 [((0 : ℚ), (4000 : ℚ))]
    (by norm_num) (by decide)

/-! ### Helper lemmas about the synchronizers -/

/-- `adjust_timings` on an empty interval list returns the empty list on
both branches. -/
theorem adjust_timings_nil (self : SubtitleSynchronizer) (offset : ℚ)
    (dtw_path : Option (List (ℕ × ℕ))) (audio_duration : Option ℚ) :
    self.adjust_timings [] offset dtw_path audio_duration = [] := by
  rw [SubtitleSynchronizer.adjust_timings]
  split_ifs <;> rfl

/-- The scale-and-clamp pass preserves the number of segments. -/
theorem sanityPass_length (audio_duration : ℚ) (aligned : List (ℚ × ℚ)) :
    (sanityPass audio_duration aligned).length = aligned.length := by
  rw [sanityPass]
  split_ifs with h
  · rw [clampStep, List.length_map, scaleStep]
    split_ifs <;> simp
  · rfl

/-- The whole rescaling cascade preserves the number of segments. -/
theorem rescaleCascade_length (audio_duration : ℚ) (aligned : List (ℚ × ℚ)) :
    (rescaleCascade audio_duration aligned).length = aligned.length := by
  rw [rescaleCascade, emergencyPass]
  split_ifs with h1 h2
  · simp [sanityPass_length]
  · exact sanityPass_length audio_duration aligned
  · exact sanityPass_length audio_duration aligned

/-- The tail of the whisper pipeline never reassigns the synchronizer
state. -/
theorem whisperSynchronizeRest_state (env : WhisperEnv)
    (self : WhisperSynchronizer) (subtitle_intervals : List (ℚ × ℚ))
    (subtitle_texts : List String) (audio_duration : ℚ) :
    (whisperSynchronizeRest env self subtitle_intervals subtitle_texts
      audio_duration).state = self := by
  rw [whisperSynchronizeRest]
  split_ifs <;> rfl

/-- When every subtitle text is non-blank and the external aligner
returns one interval per submitted segment, the tail of the whisper
pipeline preserves the interval count. -/
theorem whisperSynchronizeRest_length (env : WhisperEnv)
    (self : WhisperSynchronizer) (subtitle_intervals : List (ℚ × ℚ))
    (subtitle_texts : List String) (audio_duration : ℚ)
    (hAl : ∀ segs, (env.aligner segs).length = segs.length)
    (hTexts : ∀ t ∈ subtitle_texts, stripTruthy t = true)
    (hLen : subtitle_intervals.length = subtitle_texts.length) :
    (whisperSynchronizeRest env self subtitle_intervals subtitle_texts
      audio_duration).intervals.length = subtitle_intervals.length := by
  rw [whisperSynchronizeRest]
  split_ifs <;> try rfl
  have hfilter : (subtitle_intervals.zip subtitle_texts).filter
      (fun p => stripTruthy p.2) = subtitle_intervals.zip subtitle_texts := by
    apply List.filter_eq_self.mpr
    intro a ha
    have := List.of_mem_zip ha
    exact hTexts a.2 this.2
  dsimp only
  simp [rescaleCascade_length, hfilter, hAl, hLen]

/-- Witness for C8 at concrete out-of-range inputs. -/
theorem format_timestamp_srt_policy_witness :
    format_timestamp_srt (.num (-1)) = "00:00:00,000" ∧
    format_timestamp_srt (.num 36001) = "10:00:00,000" ∧
    format_timestamp_srt .nonNumeric = "00:00:00,000" ∧
    format_timestamp_srt (.num (-5)) = "00:00:00,000" ∧
    format_timestamp_srt (.num 37000) = "10:00:00,000" ∧
    format_timestamp_srt (.num (5 + 9999 / 10000)) = "00:00:05,999" ∧
    format_timestamp_srt (.num (3661 + 1 / 2)) = "01:01:01,500" :=
  format_timestamp_srt_policy (-1) 36001 (by norm_num) (by norm_num)

/-! ### C1 — length and order preservation of `synchronize` -/

/-- Counterexample to claim C1: on the forced-alignment path, a segment
whose text is whitespace-only is dropped before alignment, so with two
input intervals and texts `["a", " "]` (equal lengths) the returned list
has length 1, not 2 — even though the external aligner returns one
interval per submitted segment. -/
theorem whisper_synchronize_drops_blank_text :
    (WhisperSynchronizer.synchronize envAlignId whisperDefault
        [((0 : ℚ), (1 : ℚ)), ((1 : ℚ), (2 : ℚ))] ["a", " "]
        (some 50)).intervals.length = 1 ∧
    ([((0 : ℚ), (1 : ℚ)), ((1 : ℚ), (2 : ℚ))] : List (ℚ × ℚ)).length = 2 := by
  constructor
  · decide
  · decide

/-- Amended claim C1: `adjust_timings` preserves length and order — the
i-th output interval is exactly the adjustment of the i-th input
interval alone (the singleton map equation); the forced-alignment
`synchronize` preserves the input length provided every subtitle text is
non-blank and the external aligner returns one interval per submitted
segment, and on its success path with a per-segment aligner and no
emergency redistribution the output is the clamp-and-scale map of the
per-segment alignment of the zipped inputs — a chain of slot-preserving
maps, so the i-th output interval is computed from the i-th input
interval and text.  Segments with whitespace-only text are dropped from
the output. -/
theorem synchronize_length_preservation (self : SubtitleSynchronizer)
    (subtitle_intervals : List (ℚ × ℚ)) (offset : ℚ)
    (dtw_path : Option (List (ℕ × ℕ))) (audio_duration : Option ℚ)
    (env : WhisperEnv) (wself : WhisperSynchronizer)
    (wintervals : List (ℚ × ℚ)) (texts : List String) (wdur : Option ℚ)
    (alignOne : (ℚ × ℚ) × String → ℚ × ℚ) (env' : WhisperEnv)
    (wself' : WhisperSynchronizer) (wintervals' : List (ℚ × ℚ))
    (texts' : List String) (wdur' : Option ℚ)
    (hAl : ∀ segs, (env.aligner segs).length = segs.length)
    (hTexts : ∀ t ∈ texts, stripTruthy t = true)
    (hfile : env'.file_exists = true) (hload : env'.load_audio_ok = true)
    (hta : env'.timeout_audio = false)
    (hmodel : env'.load_model wself'.compute_type = .ok)
    (htm : env'.timeout_model = false) (hts : env'.timeout_segments = false)
    (hla : env'.load_align_ok = true) (htal : env'.timeout_align = false)
    (hak : env'.align_ok = true)
    (hAl' : env'.aligner = fun segs => segs.map alignOne)
    (hTexts' : ∀ t ∈ texts', stripTruthy t = true)
    (hne' : wintervals' ≠ []) (hLen' : wintervals'.length = texts'.length)
    (hd : whisperReconciledDuration env' wdur' ≠ 0)
    (hNoRed : ((sanityPass (whisperReconciledDuration env' wdur')
        ((wintervals'.zip texts').map alignOne)).any
        fun p => decide (3600 < p.2)) = false) :
    (self.adjust_timings subtitle_intervals offset dtw_path
      audio_duration).length = subtitle_intervals.length ∧
    self.adjust_timings subtitle_intervals offset dtw_path audio_duration =
      subtitle_intervals.map (fun p =>
        (self.adjust_timings [p] offset dtw_path audio_duration).headI) ∧
    (WhisperSynchronizer.synchronize env wself wintervals texts
      wdur).intervals.length = wintervals.length ∧
    (WhisperSynchronizer.synchronize env' wself' wintervals' texts'
      wdur').intervals =
      clampStep (whisperReconciledDuration env' wdur')
        (scaleStep (whisperReconciledDuration env' wdur')
          ((wintervals'.zip texts').map alignOne)) := by
  refine ⟨?_, ?_, ?_, ?_⟩
  · rw [SubtitleSynchronizer.adjust_timings]
    split_ifs <;> rw [List.length_map]
  · conv_lhs => rw [SubtitleSynchronizer.adjust_timings]
    split_ifs with h
    · refine List.map_congr_left ?_
      intro p _
      rw [SubtitleSynchronizer.adjust_timings, if_pos h]
      rfl
    · refine List.map_congr_left ?_
      intro p _
      rw [SubtitleSynchronizer.adjust_timings, if_neg h]
      rfl
  · rw [WhisperSynchronizer.synchronize]
    split_ifs with h1 h2 h3 h4 h5
    · rfl
    · rfl
    · simp [List.isEmpty_iff.mp h3]
    · rfl
    · rfl
    · rcases hm : env.load_model wself.compute_type with _ | m16 | _
      · exact whisperSynchronizeRest_length env wself wintervals texts _
          hAl hTexts (not_ne_iff.mp h2)
      · dsimp only
        split_ifs with h6
        · rcases hm2 : env.load_model "float32" with _ | _ | _
          · exact whisperSynchronizeRest_length env _ wintervals texts _
              hAl hTexts (not_ne_iff.mp h2)
          · rfl
          · rfl
        · rfl
      · rfl
  · have hfilter : (wintervals'.zip texts').filter
        (fun p => stripTruthy p.2) = wintervals'.zip texts' := by
      apply List.filter_eq_self.mpr
      intro a ha
      exact hTexts' a.2 (List.of_mem_zip ha).2
    have hanil : (wintervals'.zip texts').map alignOne ≠ [] := by
      intro hx
      have := congrArg List.length hx
      rw [List.length_map, List.length_zip, ← hLen', min_self] at this
      exact hne' (List.length_eq_zero.mp this)
    rw [WhisperSynchronizer.synchronize, hfile,
      if_neg (by simp), if_neg (by simp [hLen']),
      if_neg (by simp [List.isEmpty_iff, hne']), hload, if_neg (by simp)]
    dsimp only
    rw [hta, if_neg (by simp), hmodel]
    dsimp only
    rw [whisperSynchronizeRest, htm, if_neg (by simp), hts,
      if_neg (by simp), hla, if_neg (by simp), htal, if_neg (by simp),
      hak, if_neg (by simp)]
    dsimp only
    rw [hfilter, hAl']
    dsimp only
    rw [rescaleCascade, emergencyPass, if_neg (by simp [hNoRed]),
      sanityPass, if_pos ⟨hanil, hd⟩]

/-- Witness for the amended C1 at a concrete single-interval call on the
success path. -/
theorem synchronize_length_preservation_witness :
    (syncDefault.adjust_timings [((0 : ℚ), (1 : ℚ))] 0 none none).length =
      ([((0 : ℚ), (1 : ℚ))] : List (ℚ × ℚ)).length ∧
    syncDefault.adjust_timings [((0 : ℚ), (1 : ℚ))] 0 none none =
      ([((0 : ℚ), (1 : ℚ))] : List (ℚ × ℚ)).map (fun p =>
        (syncDefault.adjust_timings [p] 0 none none).headI) ∧
    (WhisperSynchronizer.synchronize envAlignId whisperDefault
      [((0 : ℚ), (1 : ℚ))] ["a"] (some 50)).intervals.length =
      ([((0 : ℚ), (1 : ℚ))] : List (ℚ × ℚ)).length ∧
    (WhisperSynchronizer.synchronize envAlignId whisperDefault
      [((0 : ℚ), (1 : ℚ))] ["a"] (some 50)).intervals =
      clampStep (whisperReconciledDuration envAlignId (some 50))
        (scaleStep (whisperReconciledDuration envAlignId (some 50))
          (([((0 : ℚ), (1 : ℚ))].zip ["a"]).map Prod.fst)) :=
  synchronize_length_preservation syncDefault [((0 : ℚ), (1 : ℚ))] 0 none
    none envAlignId whisperDefault [((0 : ℚ), (1 : ℚ))] ["a"] (some 50)
    Prod.fst envAlignId whisperDefault [((0 : ℚ), (1 : ℚ))] ["a"] (some 50)
    (fun segs => List.length_map segs Prod.fst) (by decide) rfl rfl rfl rfl
    rfl rfl rfl rfl rfl rfl (by decide) (by decide) (by decide) (by decide)
    (by decide)

/-! ### C7 — input-error policy of `synchronize` -/

/-- Counterexample to claim C7: `SubtitleSynchronizer.synchronize` has no
entry check for an empty interval list — it still invokes
`extract_audio_features` (the extraction-invoked flag is true), even
though it does return `[]`. -/
theorem subtitle_synchronize_extracts_on_empty :
    (syncDefault.synchronize subEnvProbeZero [] none).extraction_invoked
      = true ∧
    (syncDefault.synchronize subEnvProbeZero [] none).intervals = [] := by
  constructor
  · decide
  · decide

/-- Amended claim C7: the forced-alignment `synchronize` detects input
errors at entry — an empty interval list yields `[]` without invoking
audio loading, a missing file or an interval/text length mismatch yields
the original intervals without audio loading; the signal-correlation
`synchronize` performs no entry checks — it always invokes feature
extraction, but likewise never propagates an exception: an empty input
still yields `[]`, and an extraction failure yields the original
intervals. -/
theorem synchronize_input_error_policy (env env' : WhisperEnv)
    (wself : WhisperSynchronizer) (wintervals : List (ℚ × ℚ))
    (texts : List String) (wdur : Option ℚ) (self : SubtitleSynchronizer)
    (senv senv' : SubtitleEnv) (sintervals : List (ℚ × ℚ))
    (sdur : Option ℚ)
    (hfile : env'.file_exists = false)
    (hlen : wintervals.length ≠ texts.length)
    (hext : senv'.extract = none) :
    ((WhisperSynchronizer.synchronize env wself [] texts wdur).intervals = []
      ∧ (WhisperSynchronizer.synchronize env wself [] texts
          wdur).load_audio_invoked = false) ∧
    (WhisperSynchronizer.synchronize env' wself wintervals texts wdur =
      ⟨wintervals, wself, false⟩) ∧
    ((WhisperSynchronizer.synchronize env wself wintervals texts
      wdur).intervals = wintervals) ∧
    ((self.synchronize senv [] sdur).intervals = [] ∧
      (self.synchronize senv [] sdur).extraction_invoked = true) ∧
    ((self.synchronize senv' sintervals sdur).intervals = sintervals) := by
  have hempty : ∀ wi : List (ℚ × ℚ), wi = [] →
      WhisperSynchronizer.synchronize env wself wi texts wdur =
        ⟨[], wself, false⟩ := by
    intro wi hwi
    subst hwi
    rw [WhisperSynchronizer.synchronize]
    by_cases h1 : env.file_exists = false
    · rw [if_pos h1]
    · rw [if_neg h1]
      by_cases h2 : ([] : List (ℚ × ℚ)).length ≠ texts.length
      · rw [if_pos h2]
      · rw [if_neg h2, if_pos (by rfl : ([] : List (ℚ × ℚ)).isEmpty = true)]
  refine ⟨⟨?_, ?_⟩, ?_, ?_, ⟨?_, ?_⟩, ?_⟩
  · rw [hempty [] rfl]
  · rw [hempty [] rfl]
  · rw [WhisperSynchronizer.synchronize, if_pos hfile]
  · rw [WhisperSynchronizer.synchronize]
    by_cases h1 : env.file_exists = false
    · rw [if_pos h1]
    · rw [if_neg h1, if_pos hlen]
  · rcases h : senv.extract with _ | sig
    · rw [SubtitleSynchronizer.synchronize, h]
    · simp only [SubtitleSynchronizer.synchronize, h, adjust_timings_nil]
  · rcases h : senv.extract with _ | sig
    · rw [SubtitleSynchronizer.synchronize, h]
    · simp only [SubtitleSynchronizer.synchronize, h]
  · rw [SubtitleSynchronizer.synchronize, hext]

/-- Witness for the amended C7 at concrete environments. -/
theorem synchronize_input_error_policy_witness :
    ((WhisperSynchronizer.synchronize envAlignId whisperDefault [] []
        none).intervals = []
      ∧ (WhisperSynchronizer.synchronize envAlignId whisperDefault [] []
          none).load_audio_invoked = false) ∧
    (WhisperSynchronizer.synchronize envFileMissing whisperDefault
      [((0 : ℚ), (1 : ℚ))] [] none =
      ⟨[((0 : ℚ), (1 : ℚ))], whisperDefault, false⟩) ∧
    ((WhisperSynchronizer.synchronize envAlignId whisperDefault
      [((0 : ℚ), (1 : ℚ))] [] none).intervals = [((0 : ℚ), (1 : ℚ))]) ∧
    ((syncDefault.synchronize subEnvProbeZero [] none).intervals = [] ∧
      (syncDefault.synchronize subEnvProbeZero [] none).extraction_invoked
        = true) ∧
    ((syncDefault.synchronize subEnvExtractFails [((0 : ℚ), (1 : ℚ))]
      none).intervals = [((0 : ℚ), (1 : ℚ))]) := by
  have h := synchronize_input_error_policy envAlignId envFileMissing
    whisperDefault [((0 : ℚ), (1 : ℚ))] [] none syncDefault
    subEnvProbeZero subEnvExtractFails [((0 : ℚ), (1 : ℚ))] none
    (by decide) (by decide) (by decide)
  exact h

/-! ### C10 — frame effect of `WhisperSynchronizer.synchronize` -/

/-- Claim C10: `synchronize` leaves `model_size`, `language`, the
timeout and `device` unchanged; `compute_type` changes only when it was
"float16" and loading the model raised a `RuntimeError` mentioning
"float16", in which case it is permanently set to "float32" in the
returned state (as the concrete conjunct shows for an environment whose
float16 load fails and whose float32 retry succeeds). -/
theorem whisper_synchronize_frame_effect (env : WhisperEnv)
    (self : WhisperSynchronizer) (subtitle_intervals : List (ℚ × ℚ))
    (subtitle_texts : List String) (audio_duration : Option ℚ) :
    ((WhisperSynchronizer.synchronize env self subtitle_intervals
      subtitle_texts audio_duration).state.model_size = self.model_size ∧
    (WhisperSynchronizer.synchronize env self subtitle_intervals
      subtitle_texts audio_duration).state.language = self.language ∧
    (WhisperSynchronizer.synchronize env self subtitle_intervals
      subtitle_texts audio_duration).state.timeout_seconds =
        self.timeout_seconds ∧
    (WhisperSynchronizer.synchronize env self subtitle_intervals
      subtitle_texts audio_duration).state.device = self.device) ∧
    ((WhisperSynchronizer.synchronize env self subtitle_intervals
      subtitle_texts audio_duration).state.compute_type = self.compute_type
      ∨ (self.compute_type = "float16" ∧
        (WhisperSynchronizer.synchronize env self subtitle_intervals
          subtitle_texts audio_duration).state.compute_type = "float32" ∧
        env.load_model "float16" = .runtimeError true)) ∧
    (WhisperSynchronizer.synchronize envFloat16Fail whisperDefault
      [((0 : ℚ), (1 : ℚ))] ["a"] none).state.compute_type = "float32" := by
  have hstate : ∀ st' : WhisperSynchronizer,
      (WhisperSynchronizer.synchronize env self subtitle_intervals
        subtitle_texts audio_duration).state = st' →
      st' = self ∨ (st' = { self with compute_type := "float32" } ∧
        (env.load_model self.compute_type = .runtimeError true ∧
          self.compute_type = "float16")) := by
    intro st' hst'
    rw [WhisperSynchronizer.synchronize] at hst'
    split_ifs at hst' with h1 h2 h3 h4 h5
    · exact Or.inl hst'.symm
    · exact Or.inl hst'.symm
    · exact Or.inl hst'.symm
    · exact Or.inl hst'.symm
    · exact Or.inl hst'.symm
    · rcases hm : env.load_model self.compute_type with _ | m16 | _ <;>
        rw [hm] at hst'
      · rw [whisperSynchronizeRest_state] at hst'
        exact Or.inl hst'.symm
      · dsimp only at hst'
        split_ifs at hst' with h6
        · have hB : LoadModelOutcome.runtimeError m16 =
              LoadModelOutcome.runtimeError true := by
            rw [h6.1]
          rcases hm2 : env.load_model "float32" with _ | _ | _ <;>
            rw [hm2] at hst'
          · rw [whisperSynchronizeRest_state] at hst'
            exact Or.inr ⟨hst'.symm, hB, h6.2⟩
          · exact Or.inr ⟨hst'.symm, hB, h6.2⟩
          · exact Or.inr ⟨hst'.symm, hB, h6.2⟩
        · exact Or.inl hst'.symm
      · exact Or.inl hst'.symm
  rcases hstate _ rfl with h | ⟨h, hrt, h16⟩
  · refine ⟨⟨?_, ?_, ?_, ?_⟩, Or.inl ?_, by decide⟩ <;> rw [h]
  · refine ⟨⟨?_, ?_, ?_, ?_⟩, Or.inr ⟨h16, ?_, by rw [← h16]; exact hrt⟩,
      by decide⟩ <;> rw [h]

/-- The DTW cost matrix origin is 0 (source line 136). -/
theorem dtwCost_zero_zero (A B : List ℚ) : dtwCost A B 0 0 = 0 := rfl

/-- The first row of the DTW cost matrix is infinity past the origin
(source line 137). -/
theorem dtwCost_zero_succ (A B : List ℚ) (j : ℕ) : dtwCost A B 0 (j + 1) = ⊤ := rfl

/-- The first column of the DTW cost matrix is infinity past the origin
(source line 138). -/
theorem dtwCost_succ_zero (A B : List ℚ) (i : ℕ) : dtwCost A B (i + 1) 0 = ⊤ := rfl

/-- The interior recurrence of the DTW cost matrix (source line 145). -/
theorem dtwCost_succ_succ (A B : List ℚ) (i j : ℕ) :
    dtwCost A B (i + 1) (j + 1) =
      (if A.getD i 0 = B.getD j 0 then (0 : WithTop ℕ) else 1) +
        min (dtwCost A B i (j + 1))
          (min (dtwCost A B (i + 1) j) (dtwCost A B i j)) := rfl

/-- A match cost is never infinite. -/
theorem matchCost_ne_top (A B : List ℚ) (i j : ℕ) :
    (if A.getD i 0 = B.getD j 0 then (0 : WithTop ℕ) else 1) ≠ ⊤ := by
  split_ifs <;> decide

/-- A three-way minimum is finite as soon as one operand is. -/
theorem min3_ne_top {a b c : WithTop ℕ} (h : a ≠ ⊤ ∨ b ≠ ⊤ ∨ c ≠ ⊤) :
    min a (min b c) ≠ ⊤ := by
  simp only [ne_eq, min_eq_top, not_and]
  tauto

/-- Every interior cell of the DTW cost matrix is finite. -/
theorem dtwCost_interior_ne_top (A B : List ℚ) :
    ∀ i j, dtwCost A B (i + 1) (j + 1) ≠ ⊤ := by
  intro i
  induction i with
  | zero =>
    intro j
    induction j with
    | zero =>
      rw [dtwCost_succ_succ]
      exact WithTop.add_ne_top.mpr ⟨matchCost_ne_top A B 0 0,
        min3_ne_top (Or.inr (Or.inr (by rw [dtwCost_zero_zero]; decide)))⟩
    | succ j ihj =>
      rw [dtwCost_succ_succ]
      exact WithTop.add_ne_top.mpr ⟨matchCost_ne_top A B 0 (j + 1),
        min3_ne_top (Or.inr (Or.inl ihj))⟩
  | succ i ihi =>
    intro j
    rw [dtwCost_succ_succ]
    exact WithTop.add_ne_top.mpr ⟨matchCost_ne_top A B (i + 1) j,
      min3_ne_top (Or.inl (ihi j))⟩

/-- Backtracking from row 0 collects nothing (loop guard `i > 0`). -/
theorem dtwBacktrack_zero (A B : List ℚ) (j : ℕ) : dtwBacktrack A B 0 j = [] := rfl

/-- Backtracking from column 0 collects nothing (loop guard `j > 0`). -/
theorem dtwBacktrack_succ_zero (A B : List ℚ) (i : ℕ) :
    dtwBacktrack A B (i + 1) 0 = [] := rfl

/-- One unfolding of the backtracking loop at an interior cell. -/
theorem dtwBacktrack_succ_succ (A B : List ℚ) (i j : ℕ) :
    dtwBacktrack A B (i + 1) (j + 1) =
      (i, j) ::
        (if min (dtwCost A B i (j + 1))
              (min (dtwCost A B (i + 1) j) (dtwCost A B i j)) =
            dtwCost A B i j
          then dtwBacktrack A B i j
          else
            if min (dtwCost A B i (j + 1))
                (min (dtwCost A B (i + 1) j) (dtwCost A B i j)) =
              dtwCost A B i (j + 1)
            then dtwBacktrack A B i (j + 1)
            else dtwBacktrack A B (i + 1) j) := rfl

/-- A list with a last element is nonempty. -/
theorem ne_nil_of_getLast?_eq_some {α : Type} {l : List α} {a : α}
    (h : l.getLast? = some a) : l ≠ [] := by
  intro hnil
  rw [hnil] at h
  exact Option.noConfusion h

/-- The last element of a cons with nonempty tail is the tail's. -/
theorem getLast?_cons_of_ne_nil {α : Type} (a : α) {l : List α} (h : l ≠ []) :
    (a :: l).getLast? = l.getLast? := by
  cases l with
  | nil => exact absurd rfl h
  | cons b t => exact List.getLast?_cons_cons

/-- The backtracking walk from any interior cell ends at the origin:
the border costs are infinite while the interior is finite, so the walk
can only leave through `(0, 0)`. -/
theorem dtwBacktrack_getLast (A B : List ℚ) :
    ∀ n i j, i + j ≤ n →
      (dtwBacktrack A B (i + 1) (j + 1)).getLast? = some (0, 0) := by
  intro n
  induction n with
  | zero =>
    intro i j h
    obtain rfl : i = 0 := by omega
    obtain rfl : j = 0 := by omega
    rw [dtwBacktrack_succ_succ, dtwCost_zero_succ, dtwCost_succ_zero,
      dtwCost_zero_zero, if_pos (by decide)]
    rfl
  | succ n ih =>
    intro i j h
    match i, j with
    | 0, 0 =>
      rw [dtwBacktrack_succ_succ, dtwCost_zero_succ, dtwCost_succ_zero,
        dtwCost_zero_zero, if_pos (by decide)]
      rfl
    | 0, j + 1 =>
      have hleft := dtwCost_interior_ne_top A B 0 j
      rw [dtwBacktrack_succ_succ, dtwCost_zero_succ, dtwCost_zero_succ,
        min_eq_left le_top, min_eq_right le_top, if_neg hleft, if_neg hleft]
      have hrec := ih 0 j (by omega)
      rw [getLast?_cons_of_ne_nil _ (ne_nil_of_getLast?_eq_some hrec)]
      exact hrec
    | i + 1, 0 =>
      have hup := dtwCost_interior_ne_top A B i 0
      rw [dtwBacktrack_succ_succ, dtwCost_succ_zero, dtwCost_succ_zero,
        min_self, min_eq_left le_top, if_neg hup, if_pos rfl]
      have hrec := ih i 0 (by omega)
      rw [getLast?_cons_of_ne_nil _ (ne_nil_of_getLast?_eq_some hrec)]
      exact hrec
    | i + 1, j + 1 =>
      rw [dtwBacktrack_succ_succ]
      split_ifs with h1 h2
      · have hrec := ih i j (by omega)
        rw [getLast?_cons_of_ne_nil _ (ne_nil_of_getLast?_eq_some hrec)]
        exact hrec
      · have hrec := ih i (j + 1) (by omega)
        rw [getLast?_cons_of_ne_nil _ (ne_nil_of_getLast?_eq_some hrec)]
        exact hrec
      · have hrec := ih (i + 1) j (by omega)
        rw [getLast?_cons_of_ne_nil _ (ne_nil_of_getLast?_eq_some hrec)]
        exact hrec

/-- The first collected point of a backtracking walk from `(a, b)` is
`(a - 1, b - 1)`. -/
theorem dtwBacktrack_head_eq (A B : List ℚ) (a b : ℕ) (p : ℕ × ℕ)
    (h : p ∈ (dtwBacktrack A B a b).head?) : p.1 + 1 = a ∧ p.2 + 1 = b := by
  match a, b with
  | 0, b =>
    rw [dtwBacktrack_zero] at h
    exact absurd h (by simp)
  | a + 1, 0 =>
    rw [dtwBacktrack_succ_zero] at h
    exact absurd h (by simp)
  | a + 1, b + 1 =>
    rw [dtwBacktrack_succ_succ] at h
    simp only [List.head?_cons, Option.mem_def, Option.some.injEq] at h
    rw [← h]
    exact ⟨rfl, rfl⟩

/-- Along the collected walk, both coordinates are non-increasing. -/
theorem dtwBacktrack_chain (A B : List ℚ) :
    ∀ n i j, i + j ≤ n →
      List.Chain' (fun p q : ℕ × ℕ => q.1 ≤ p.1 ∧ q.2 ≤ p.2)
        (dtwBacktrack A B i j) := by
  intro n
  induction n with
  | zero =>
    intro i j h
    obtain rfl : i = 0 := by omega
    rw [dtwBacktrack_zero]
    exact List.chain'_nil
  | succ n ih =>
    intro i j h
    match i, j with
    | 0, j =>
      rw [dtwBacktrack_zero]
      exact List.chain'_nil
    | i + 1, 0 =>
      rw [dtwBacktrack_succ_zero]
      exact List.chain'_nil
    | i + 1, j + 1 =>
      rw [dtwBacktrack_succ_succ, List.chain'_cons']
      constructor
      · split_ifs with h1 h2 <;> intro b hb
        · have := dtwBacktrack_head_eq A B i j b hb
          exact ⟨by omega, by omega⟩
        · have := dtwBacktrack_head_eq A B i (j + 1) b hb
          exact ⟨by omega, by omega⟩
        · have := dtwBacktrack_head_eq A B (i + 1) j b hb
          exact ⟨by omega, by omega⟩
      · split_ifs with h1 h2
        · exact ih i j (by omega)
        · exact ih i (j + 1) (by omega)
        · exact ih (i + 1) j (by omega)

/-- Claim C5: for binary sequences `A`, `B`, the DTW cost matrix has
`cost[0][0] = 0` and infinity on the rest of the first row and column,
the interior satisfies the match-cost recurrence, and the backtracked
path starts at `(0, 0)`, ends at `(n - 1, m - 1)`, and is monotonically
non-decreasing in both coordinates. -/
theorem dtw_cost_matrix_and_path (A B : List ℚ) (i j : ℕ)
    (hA : A ≠ []) (hB : B ≠ [])
    (hbinA : ∀ x ∈ A, x = 0 ∨ x = 1) (hbinB : ∀ x ∈ B, x = 0 ∨ x = 1)
    (hi : i < A.length) (hj : j < B.length) :
    dtwCost A B 0 0 = 0 ∧
    dtwCost A B (i + 1) 0 = ⊤ ∧
    dtwCost A B 0 (j + 1) = ⊤ ∧
    dtwCost A B (i + 1) (j + 1) =
      (if A.getD i 0 = B.getD j 0 then (0 : WithTop ℕ) else 1) +
        min (dtwCost A B i (j + 1))
          (min (dtwCost A B (i + 1) j) (dtwCost A B i j)) ∧
    (apply_dynamic_time_warping A B).head? = some (0, 0) ∧
    (apply_dynamic_time_warping A B).getLast? =
      some (A.length - 1, B.length - 1) ∧
    List.Chain' (fun p q : ℕ × ℕ => p.1 ≤ q.1 ∧ p.2 ≤ q.2)
      (apply_dynamic_time_warping A B) := by
  obtain ⟨n', hn⟩ :=
    Nat.exists_eq_succ_of_ne_zero
      (Nat.pos_iff_ne_zero.mp (List.length_pos.mpr hA))
  obtain ⟨m', hm⟩ :=
    Nat.exists_eq_succ_of_ne_zero
      (Nat.pos_iff_ne_zero.mp (List.length_pos.mpr hB))
  refine ⟨dtwCost_zero_zero A B, dtwCost_succ_zero A B i,
    dtwCost_zero_succ A B j, dtwCost_succ_succ A B i j, ?_, ?_, ?_⟩
  · rw [apply_dynamic_time_warping, List.head?_reverse, hn, hm]
    exact dtwBacktrack_getLast A B (n' + m') n' m' le_rfl
  · rw [apply_dynamic_time_warping, List.getLast?_reverse, hn, hm]
    rw [dtwBacktrack_succ_succ]
    rfl
  · rw [apply_dynamic_time_warping]
    exact List.chain'_reverse.mpr
      (dtwBacktrack_chain A B (A.length + B.length) A.length B.length le_rfl)

/-- Witness for C5 on the concrete signals `[1, 0]` and `[0, 1]`. -/
theorem dtw_cost_matrix_and_path_witness :
    dtwCost [(1 : ℚ), 0] [(0 : ℚ), 1] 0 0 = 0 ∧
    dtwCost [(1 : ℚ), 0] [(0 : ℚ), 1] (1 + 1) 0 = ⊤ ∧
    dtwCost [(1 : ℚ), 0] [(0 : ℚ), 1] 0 (1 + 1) = ⊤ ∧
    dtwCost [(1 : ℚ), 0] [(0 : ℚ), 1] (1 + 1) (1 + 1) =
      (if ([(1 : ℚ), 0].getD 1 0 = [(0 : ℚ), 1].getD 1 0) then (0 : WithTop ℕ)
        else 1) +
        min (dtwCost [(1 : ℚ), 0] [(0 : ℚ), 1] 1 (1 + 1))
          (min (dtwCost [(1 : ℚ), 0] [(0 : ℚ), 1] (1 + 1) 1)
            (dtwCost [(1 : ℚ), 0] [(0 : ℚ), 1] 1 1)) ∧
    (apply_dynamic_time_warping [(1 : ℚ), 0] [(0 : ℚ), 1]).head? = some (0, 0) ∧
    (apply_dynamic_time_warping [(1 : ℚ), 0] [(0 : ℚ), 1]).getLast? =
      some ([(1 : ℚ), 0].length - 1, [(0 : ℚ), 1].length - 1) ∧
    List.Chain' (fun p q : ℕ × ℕ => p.1 ≤ q.1 ∧ p.2 ≤ q.2)
      (apply_dynamic_time_warping [(1 : ℚ), 0] [(0 : ℚ), 1]) :=
  dtw_cost_matrix_and_path [(1 : ℚ), 0] [(0 : ℚ), 1] 1 1 (by decide) (by decide)
    (by decide) (by decide) (by decide) (by decide)

/-! ### C9 — offset of identical signals -/

/-- A left fold accumulating additions over `List.range` is a finite sum. -/
theorem foldl_add_eq_sum (g : ℕ → ℚ) : ∀ (m : ℕ) (c : ℚ),
    (List.range m).foldl (fun acc n => acc + g n) c =
      c + ∑ n in Finset.range m, g n := by
  intro m
  induction m with
  | zero => intro c; simp
  | succ m ih =>
    intro c
    rw [List.range_succ, List.foldl_append, ih, Finset.sum_range_succ]
    dsimp only [List.foldl]
    ring

/-- The correlation lag value as a finite sum over the overlap. -/
theorem corrAt_eq_sum (a v : List ℚ) (idx : ℕ) :
    corrAt a v idx =
      ∑ n in Finset.range v.length,
        (if 0 ≤ (n : ℤ) + (idx : ℤ) - ((v.length : ℤ) - 1) ∧
            (n : ℤ) + (idx : ℤ) - ((v.length : ℤ) - 1) < (a.length : ℤ) then
          a.getD ((n : ℤ) + (idx : ℤ) - ((v.length : ℤ) - 1)).toNat 0 *
            v.getD n 0
        else 0) := by
  rw [show corrAt a v idx =
      (List.range v.length).foldl
        (fun acc (n : ℕ) =>
          acc +
            (if 0 ≤ (n : ℤ) + (idx : ℤ) - ((v.length : ℤ) - 1) ∧
                (n : ℤ) + (idx : ℤ) - ((v.length : ℤ) - 1) < (a.length : ℤ) then
              a.getD ((n : ℤ) + (idx : ℤ) - ((v.length : ℤ) - 1)).toNat 0 *
                v.getD n 0
            else 0))
        0 from rfl]
  rw [foldl_add_eq_sum, zero_add]

/-- Every (defaulted) sample of a binary signal is 0 or 1. -/
theorem getD_binary {s : List ℚ} (hbin : ∀ x ∈ s, x = 0 ∨ x = 1) (n : ℕ) :
    s.getD n 0 = 0 ∨ s.getD n 0 = 1 := by
  by_cases h : n < s.length
  · rw [List.getD_eq_getElem s 0 h]
    exact hbin _ (List.getElem_mem h)
  · rw [List.getD_eq_default s 0 (le_of_not_lt h)]
    exact Or.inl rfl

/-- At the zero lag (output index `len - 1`), the self-correlation of a
binary signal counts its ones. -/
theorem corrAt_self_last {s : List ℚ} (hbin : ∀ x ∈ s, x = 0 ∨ x = 1)
    (hne : s ≠ []) :
    corrAt s s (s.length - 1) =
      ∑ n in Finset.range s.length, s.getD n 0 := by
  have hL : 1 ≤ s.length := List.length_pos.mpr hne
  rw [corrAt_eq_sum]
  apply Finset.sum_congr rfl
  intro n hn
  have hn' : n < s.length := Finset.mem_range.mp hn
  have hj : (n : ℤ) + ((s.length - 1 : ℕ) : ℤ) - ((s.length : ℤ) - 1)
      = (n : ℤ) := by
    omega
  rw [hj, if_pos ⟨Int.natCast_nonneg n, by exact_mod_cast hn'⟩,
    Int.toNat_natCast]
  rcases getD_binary hbin n with h | h <;> rw [h] <;> ring

/-- Every lag of the self-correlation of a binary signal is at most its
number of ones (termwise, `s[n+k] * s[n] <= s[n]`). -/
theorem corrAt_self_le {s : List ℚ} (hbin : ∀ x ∈ s, x = 0 ∨ x = 1)
    (idx : ℕ) :
    corrAt s s idx ≤ ∑ n in Finset.range s.length, s.getD n 0 := by
  rw [corrAt_eq_sum]
  apply Finset.sum_le_sum
  intro n _
  split_ifs with h
  · rcases getD_binary hbin
        (((n : ℤ) + (idx : ℤ) - ((s.length : ℤ) - 1)).toNat) with h1 | h1 <;>
      rcases getD_binary hbin n with h2 | h2 <;> rw [h1, h2] <;> norm_num
  · rcases getD_binary hbin n with h2 | h2 <;> rw [h2] <;> norm_num

/-- For a nonzero binary signal, every lag strictly before the zero lag
has strictly smaller correlation: at the least one position `p`, the
partner `p + k` (with `k < 0`) is either out of range or below `p`,
so that term drops from 1 to 0. -/
theorem corrAt_self_lt {s : List ℚ} (hbin : ∀ x ∈ s, x = 0 ∨ x = 1)
    (hnz : ∃ x ∈ s, x ≠ 0) (idx : ℕ) (hidx : idx < s.length - 1) :
    corrAt s s idx < ∑ n in Finset.range s.length, s.getD n 0 := by
  have hex : ∃ n, s.getD n 0 = 1 := by
    obtain ⟨x, hx, hx0⟩ := hnz
    obtain ⟨k, rfl⟩ := List.mem_iff_get.mp hx
    refine ⟨k.1, ?_⟩
    have hgd : s.getD k.1 0 = s.get k := by
      rw [List.getD_eq_getElem s 0 k.2, List.get_eq_getElem]
    rw [hgd]
    rcases hbin _ hx with h | h
    · exact absurd h hx0
    · exact h
  have hp1 : s.getD (Nat.find hex) 0 = 1 := Nat.find_spec hex
  have hpmin : ∀ m, m < Nat.find hex → s.getD m 0 = 0 := by
    intro m hm
    rcases getD_binary hbin m with h | h
    · exact h
    · exact absurd h (Nat.find_min hex hm)
  have hpL : Nat.find hex < s.length := by
    by_contra h
    rw [List.getD_eq_default s 0 (le_of_not_lt h)] at hp1
    norm_num at hp1
  rw [corrAt_eq_sum]
  apply Finset.sum_lt_sum
  · intro n _
    split_ifs with h
    · rcases getD_binary hbin
          (((n : ℤ) + (idx : ℤ) - ((s.length : ℤ) - 1)).toNat) with h1 | h1 <;>
        rcases getD_binary hbin n with h2 | h2 <;> rw [h1, h2] <;> norm_num
    · rcases getD_binary hbin n with h2 | h2 <;> rw [h2] <;> norm_num
  · refine ⟨Nat.find hex, Finset.mem_range.mpr hpL, ?_⟩
    split_ifs with h
    · have hjlt : (((Nat.find hex : ℤ) + (idx : ℤ) -
          ((s.length : ℤ) - 1)).toNat) < Nat.find hex := by
        omega
      rw [hpmin _ hjlt, hp1]
      norm_num
    · rw [hp1]
      norm_num

/-- The scan keeps its current best when nothing later is strictly
greater. -/
theorem argmaxFirstAux_all_le : ∀ (xs : List ℚ) (bi i : ℕ) (bv : ℚ),
    (∀ x ∈ xs, x ≤ bv) → argmaxFirstAux bi bv i xs = bi := by
  intro xs
  induction xs with
  | nil => intro bi i bv _; rfl
  | cons x t ih =>
    intro bi i bv h
    simp only [argmaxFirstAux]
    rw [if_neg (not_lt.mpr (h x (List.mem_cons_self x t)))]
    exact ih bi (i + 1) bv (fun y hy => h y (List.mem_cons_of_mem x hy))

/-- The scan lands on position `js` when everything before it is
strictly below it, nothing exceeds it, and it beats the incoming best. -/
theorem argmaxFirstAux_spec : ∀ (xs : List ℚ) (bi i js : ℕ) (bv : ℚ)
    (hj : js < xs.length),
    (∀ t (ht : t < xs.length), t < js → xs.get ⟨t, ht⟩ < xs.get ⟨js, hj⟩) →
    (∀ t (ht : t < xs.length), xs.get ⟨t, ht⟩ ≤ xs.get ⟨js, hj⟩) →
    bv < xs.get ⟨js, hj⟩ →
    argmaxFirstAux bi bv i xs = i + js := by
  intro xs
  induction xs with
  | nil =>
    intro bi i js bv hj
    exact absurd hj (Nat.not_lt_zero js)
  | cons x t ih =>
    intro bi i js bv hj hlt hle hbv
    match js with
    | 0 =>
      have hbv' : bv < x := hbv
      simp only [argmaxFirstAux]
      rw [if_pos hbv']
      rw [argmaxFirstAux_all_le t i (i + 1) x ?_]
      · omega
      · intro y hy
        obtain ⟨k, rfl⟩ := List.mem_iff_get.mp hy
        exact hle (k.1 + 1) (Nat.succ_lt_succ k.2)
    | js + 1 =>
      have hj' : js < t.length := Nat.lt_of_succ_lt_succ hj
      simp only [argmaxFirstAux]
      by_cases hx : bv < x
      · rw [if_pos hx]
        rw [ih i (i + 1) js x hj'
          (fun u hu hu' => hlt (u + 1) (Nat.succ_lt_succ hu) (Nat.succ_lt_succ hu'))
          (fun u hu => hle (u + 1) (Nat.succ_lt_succ hu))
          (hlt 0 (Nat.succ_pos t.length) (Nat.succ_pos js))]
        omega
      · rw [if_neg hx]
        rw [ih bi (i + 1) js bv hj'
          (fun u hu hu' => hlt (u + 1) (Nat.succ_lt_succ hu) (Nat.succ_lt_succ hu'))
          (fun u hu => hle (u + 1) (Nat.succ_lt_succ hu))
          hbv]
        omega

/-- `argmaxFirst` returns the position of the first maximum. -/
theorem argmaxFirst_spec (l : List ℚ) (js : ℕ) (hj : js < l.length)
    (hlt : ∀ t (ht : t < l.length), t < js → l.get ⟨t, ht⟩ < l.get ⟨js, hj⟩)
    (hle : ∀ t (ht : t < l.length), l.get ⟨t, ht⟩ ≤ l.get ⟨js, hj⟩) :
    argmaxFirst l = js := by
  match l with
  | [] => exact absurd hj (Nat.not_lt_zero js)
  | x :: t =>
    match js with
    | 0 =>
      simp only [argmaxFirst]
      apply argmaxFirstAux_all_le
      intro y hy
      obtain ⟨k, rfl⟩ := List.mem_iff_get.mp hy
      exact hle (k.1 + 1) (Nat.succ_lt_succ k.2)
    | js + 1 =>
      have hj' : js < t.length := Nat.lt_of_succ_lt_succ hj
      simp only [argmaxFirst]
      rw [argmaxFirstAux_spec t 0 1 js x hj'
        (fun u hu hu' => hlt (u + 1) (Nat.succ_lt_succ hu) (Nat.succ_lt_succ hu'))
        (fun u hu => hle (u + 1) (Nat.succ_lt_succ hu))
        (hlt 0 (Nat.succ_pos t.length) (Nat.succ_pos js))]
      omega

/-- Indexing the full cross-correlation yields the lag value. -/
theorem crossCorrelate_get (a v : List ℚ) (t : ℕ)
    (ht : t < (crossCorrelate a v).length) :
    (crossCorrelate a v).get ⟨t, ht⟩ = corrAt a v t := by
  simp [crossCorrelate]

/-- Amended claim C9: for every pair of identical binary signals of
length 100 that are not identically zero, the estimator returns offset
0.0 (the autocorrelation has a strict maximum at the zero lag, which the
first-occurrence tie-break then selects); on the all-zero pair the
plateau makes the first-occurrence tie-break pick the most negative
lag instead. -/
theorem find_global_offset_identical_nonzero (self : SubtitleSynchronizer)
    (s : List ℚ) (hbin : ∀ x ∈ s, x = 0 ∨ x = 1) (hlen : s.length = 100)
    (hnz : ∃ x ∈ s, x ≠ 0) :
    self.find_global_offset s s = 0 := by
  have hne : s ≠ [] := by
    rintro rfl
    obtain ⟨x, hx, _⟩ := hnz
    exact absurd hx (List.not_mem_nil x)
  have hL : 0 < s.length := List.length_pos.mpr hne
  have hmaxidx : argmaxFirst (crossCorrelate s s) = s.length - 1 := by
    have hlen2 : (crossCorrelate s s).length = s.length + s.length - 1 := by
      simp [crossCorrelate]
    apply argmaxFirst_spec (crossCorrelate s s) (s.length - 1)
      (by rw [hlen2]; omega)
    · intro t ht hlt'
      rw [crossCorrelate_get, crossCorrelate_get]
      calc corrAt s s t < ∑ n in Finset.range s.length, s.getD n 0 :=
            corrAt_self_lt hbin hnz t hlt'
        _ = corrAt s s (s.length - 1) := (corrAt_self_last hbin hne).symm
    · intro t ht
      rw [crossCorrelate_get, crossCorrelate_get]
      calc corrAt s s t ≤ ∑ n in Finset.range s.length, s.getD n 0 :=
            corrAt_self_le hbin t
        _ = corrAt s s (s.length - 1) := (corrAt_self_last hbin hne).symm
  rw [SubtitleSynchronizer.find_global_offset,
    if_neg (by omega : ¬(s.length = 0 ∨ s.length = 0))]
  simp only [max_self, Nat.sub_self, List.replicate_zero, List.append_nil]
  rw [hmaxidx]
  have h0 : ((s.length - 1 : ℕ) : ℤ) - (s.length : ℤ) + 1 = 0 := by omega
  rw [h0]
  simp

/-- Counterexample to claim C9: on two identical all-zero signals of
length 100 the correlation is an all-zero plateau, the first-occurrence
tie-break picks lag index 0, and the estimator returns -0.99, not 0.0
(the magnitude 0.99 is within the default 10 s bound, so it is not
suppressed). -/
theorem find_global_offset_all_zero :
    syncDefault.find_global_offset (List.replicate 100 (0 : ℚ))
        (List.replicate 100 (0 : ℚ)) = -(99 / 100) ∧
    (-(99 / 100) : ℚ) ≠ 0 := by
  constructor
  · have hcorr : ∀ idx, corrAt (List.replicate 100 (0 : ℚ))
        (List.replicate 100 (0 : ℚ)) idx = 0 := by
      intro idx
      rw [corrAt_eq_sum]
      apply Finset.sum_eq_zero
      intro n _
      split_ifs with h
      · have hz : ∀ m : ℕ, (List.replicate 100 (0 : ℚ)).getD m 0 = 0 := by
          intro m
          by_cases hm : m < (List.replicate 100 (0 : ℚ)).length
          · rw [List.getD_eq_getElem _ 0 hm, List.getElem_replicate]
          · rw [List.getD_eq_default _ 0 (le_of_not_lt hm)]
        rw [hz, hz, mul_zero]
      · rfl
    have hidx : argmaxFirst (crossCorrelate (List.replicate 100 (0 : ℚ))
        (List.replicate 100 (0 : ℚ))) = 0 := by
      apply argmaxFirst_spec _ 0 (by simp [crossCorrelate])
      · intro t ht hlt'
        exact absurd hlt' (Nat.not_lt_zero t)
      · intro t ht
        rw [crossCorrelate_get, crossCorrelate_get, hcorr, hcorr]
    rw [SubtitleSynchronizer.find_global_offset, if_neg (by simp)]
    simp only [max_self, Nat.sub_self, List.replicate_zero, List.append_nil]
    rw [hidx]
    rw [if_neg (by rw [List.length_replicate]; norm_num [syncDefault,
      abs_of_nonpos])]
    rw [List.length_replicate]
    norm_num [syncDefault]
  · norm_num

/-- Witness for the amended C9 at a concrete nonzero binary signal of
length 100. -/
theorem find_global_offset_identical_nonzero_witness :
    syncDefault.find_global_offset ((1 : ℚ) :: List.replicate 99 0)
      ((1 : ℚ) :: List.replicate 99 0) = 0 :=
  find_global_offset_identical_nonzero syncDefault
    ((1 : ℚ) :: List.replicate 99 0) (by decide) (by decide) (by decide)
